import Mathlib

/-!
# Verification of the quiz-game core (session controller, content store,
# package codec, idle watchdog)

Shallow embedding of the repository's core logic:

* `GameScreen` session controller (`handleAnswer`, `startBonusRound`,
  `handleBonusResult`, `handleBonusAnswer`, the two timer effects) from
  the game-screen component.
* `CustomContentManager` (`getAllItems` merge, `saveItem`,
  `exportGamePack`, `importGamePack`) from `src/utils/db.ts`.
* the idle watchdog of `src/components/ReviewScreen.tsx`.

JavaScript machine details are modelled explicitly: truthiness checks on
options, `Math.floor(Math.random() * n)` as an arbitrary index `r % n`,
a thrown `TypeError` as an `Option String` error component, and the JSZip
name-keyed file dictionary as a last-write-wins association list.
-/

set_option maxHeartbeats 1000000

namespace FakeOrReal

/-! ## Data model (src/types.ts) -/

/-- `MediaType` from src/types.ts: `'image' | 'video'`. -/
inductive MediaType where
  | image
  | video
deriving DecidableEq

/-- `MediaItem` from src/types.ts. -/
structure MediaItem where
  id : String
  type : MediaType
  url : String
  isReal : Bool
  title : String
  explanation : String
  tips : List String
  category : String
  shortTip : Option String
  aiModel : Option String
  isCustom : Option Bool
deriving DecidableEq

/-- `UserAnswer` from src/types.ts. -/
structure UserAnswer where
  itemId : String
  guessedReal : Bool
  isCorrect : Bool
  timeTaken : Nat
  pointsEarned : Nat
deriving DecidableEq

/-- `GameDebugConfig` from src/types.ts. -/
structure GameDebugConfig where
  initialStreak : Option Nat
  forceBonusRound : Option Bool
deriving DecidableEq

/-! ## Session controller state (GameScreen component state hooks) -/

/-- The two values of the `bonusResult` state hook (`'success' | 'fail'`). -/
inductive BonusRes where
  | success
  | fail
deriving DecidableEq

/-- The `useState` hooks of the `GameScreen` component, collected into one
record.  `thrown` is not part of it: exceptions are reported separately. -/
structure SessionState where
  currentIndex : Nat
  timeLeft : Int
  answers : List UserAnswer
  feedback : Option Bool
  isProcessing : Bool
  lastPointsEarned : Nat
  streak : Nat
  score : Nat
  earnedBonus : Bool
  showBonusRound : Bool
  bonusTimer : Int
  bonusItems : Option (MediaItem × MediaItem)
  bonusDisplayItems : List MediaItem
  bonusResult : Option BonusRes
  bonusFeedbackItem : Option MediaItem
deriving DecidableEq

/-- Scoring constants declared inside `GameScreen`. -/
def BASE_POINTS : Nat := 100

/-- Fixed bonus-round reward. -/
def BONUS_POINTS : Nat := 1000

/-- Streak length at which the 2x multiplier starts. -/
def STREAK_THRESHOLD : Nat := 3

/-- Streak length at which the 4x multiplier starts. -/
def MEGA_STREAK_THRESHOLD : Nat := 7

/-- Streak length that latches the bonus-round qualification. -/
def BONUS_ROUND_QUALIFIER : Nat := 5

/-- Initial component state.  `streak` is seeded from
`debugConfig?.initialStreak || 0`, `earnedBonus` reflects the
`debugConfig?.forceBonusRound` effect that runs on mount. -/
def initialState (duration : Int) (dbg : GameDebugConfig) : SessionState :=
  { currentIndex := 0
    timeLeft := duration
    answers := []
    feedback := none
    isProcessing := false
    lastPointsEarned := 0
    streak := dbg.initialStreak.getD 0
    score := 0
    earnedBonus := dbg.forceBonusRound.getD false
    showBonusRound := false
    bonusTimer := 10
    bonusItems := none
    bonusDisplayItems := []
    bonusResult := none
    bonusFeedbackItem := none }

/-- `handleAnswer(guessedReal)` from `GameScreen`.  Returns the new state
and, in the second component, the message of a thrown `TypeError` when the
current item is `undefined` (the source reads `currentItem.isReal` without
a guard).  The `isProcessing` lock is checked first and set before the
faulting read, matching the statement order of the source.  The
`earnedBonus` latch models the `useEffect` on `streak`. -/
def handleAnswer (items : List MediaItem) (s : SessionState) (guessedReal : Bool) :
    SessionState × Option String :=
  if s.isProcessing then (s, none)
  else
    let s1 := { s with isProcessing := true }
    match items[s.currentIndex]? with
    | none => (s1, some "TypeError: Cannot read properties of undefined (reading isReal)")
    | some currentItem =>
      let isCorrect := guessedReal == currentItem.isReal
      let newStreak := s.streak + 1
      let multiplier : Nat :=
        if newStreak ≥ MEGA_STREAK_THRESHOLD then 4
        else if newStreak ≥ STREAK_THRESHOLD then 2
        else 1
      let points : Nat := if isCorrect then BASE_POINTS * multiplier else 0
      let newAnswer : UserAnswer :=
        { itemId := currentItem.id
          guessedReal := guessedReal
          isCorrect := isCorrect
          timeTaken := 0
          pointsEarned := points }
      let s2 :=
        if isCorrect then
          { s1 with
              score := s.score + points
              streak := newStreak
              lastPointsEarned := points
              earnedBonus := s.earnedBonus || decide (newStreak ≥ BONUS_ROUND_QUALIFIER) }
        else
          { s1 with streak := 0, lastPointsEarned := 0 }
      ({ s2 with answers := s.answers ++ [newAnswer], feedback := some isCorrect }, none)

/-- The `setTimeout` callback at the end of `handleAnswer`: clear feedback,
release the processing lock, then advance to the next item or force the
clock to zero. -/
def afterAnswerDelay (items : List MediaItem) (s : SessionState) : SessionState :=
  let s1 := { s with feedback := none, isProcessing := false }
  if s.currentIndex < items.length - 1 then { s1 with currentIndex := s.currentIndex + 1 }
  else { s1 with timeLeft := 0 }

/-- `startBonusRound` from `GameScreen`.  The two `Math.random()` picks are
parametrised by `r` and `a` (`Math.floor(Math.random() * n)` is some index
below `n`, modelled as `r % n`), the random display order by `flip`.  The
second component is `true` when the path called `onEndGame(answers)`
instead of entering the bonus round. -/
def startBonusRound (items : List MediaItem) (r a : Nat) (flip : Bool) (s : SessionState) :
    SessionState × Bool :=
  let availableReal := items.filter (fun i => i.isReal)
  let availableAI := items.filter (fun i => !i.isReal)
  let realPick : Option MediaItem :=
    if availableReal.length > 0 then availableReal[r % availableReal.length]? else items[0]?
  let aiPick : Option MediaItem :=
    if availableAI.length > 0 then availableAI[a % availableAI.length]? else items[0]?
  match realPick, aiPick with
  | some re, some aiItem =>
      ({ s with
          bonusItems := some (re, aiItem)
          bonusFeedbackItem := none
          bonusDisplayItems := if flip then [aiItem, re] else [re, aiItem]
          bonusTimer := 10
          showBonusRound := true }, false)
  | _, _ => (s, true)

/-- `handleBonusResult(result, bonusAnswer?)` from `GameScreen`: record the
result, add the bonus points on success, and append the answer record when
one was passed. -/
def handleBonusResult (s : SessionState) (result : BonusRes) (bonusAnswer : Option UserAnswer) :
    SessionState :=
  { s with
      bonusResult := some result
      score := if result = BonusRes.success then s.score + BONUS_POINTS else s.score
      answers :=
        match bonusAnswer with
        | some a => s.answers ++ [a]
        | none => s.answers }

/-- `handleBonusAnswer(selectedItem)` from `GameScreen`: ignored once a
result exists; otherwise selecting the non-authentic item succeeds. -/
def handleBonusAnswer (s : SessionState) (selectedItem : MediaItem) : SessionState :=
  if s.bonusResult ≠ none then s
  else
    let s1 := { s with bonusFeedbackItem := some selectedItem }
    let isCorrect := !selectedItem.isReal
    let bonusAnswer : UserAnswer :=
      { itemId := selectedItem.id
        guessedReal := false
        isCorrect := isCorrect
        timeTaken := 0
        pointsEarned := if isCorrect then BONUS_POINTS else 0 }
    if isCorrect then handleBonusResult s1 BonusRes.success (some bonusAnswer)
    else handleBonusResult s1 BonusRes.fail (some bonusAnswer)

/-- The bonus-timer `useEffect`: inactive unless the bonus round is showing
with no result yet; forces a failure when the bonus clock hits zero,
otherwise ticks the clock down. -/
def bonusTimerEffect (s : SessionState) : SessionState :=
  if !s.showBonusRound || s.bonusResult ≠ none then s
  else if s.bonusTimer ≤ 0 then handleBonusResult s BonusRes.fail none
  else { s with bonusTimer := s.bonusTimer - 1 }

/-- The main-timer `useEffect`: inactive during the bonus round; at zero it
starts the bonus round when qualified (and no bonus result exists) or ends
the game; otherwise it ticks the clock down.  The second component is
`true` when `onEndGame(answers)` was invoked. -/
def mainTimerEffect (items : List MediaItem) (r a : Nat) (flip : Bool) (s : SessionState) :
    SessionState × Bool :=
  if s.showBonusRound then (s, false)
  else if s.timeLeft ≤ 0 then
    if s.earnedBonus && s.bonusResult = none then startBonusRound items r a flip s
    else (s, true)
  else ({ s with timeLeft := s.timeLeft - 1 }, false)

/-- One externally triggered step of the session controller: an answer
click, the end of the presentation delay, a bonus pick, or a timer tick. -/
inductive SessionOp where
  | answer (g : Bool)
  | presentationDone
  | bonusAnswer (item : MediaItem)
  | mainTick (r a : Nat) (flip : Bool)
  | bonusTick
deriving DecidableEq

/-- Apply one controller step to the component state. -/
def applyOp (items : List MediaItem) (s : SessionState) : SessionOp → SessionState
  | SessionOp.answer g => (handleAnswer items s g).1
  | SessionOp.presentationDone => afterAnswerDelay items s
  | SessionOp.bonusAnswer item => handleBonusAnswer s item
  | SessionOp.mainTick r a flip => (mainTimerEffect items r a flip s).1
  | SessionOp.bonusTick => bonusTimerEffect s

/-- Run a whole session: fold a sequence of steps from the initial state. -/
def sessionRun (items : List MediaItem) (duration : Int) (dbg : GameDebugConfig)
    (ops : List SessionOp) : SessionState :=
  ops.foldl (applyOp items) (initialState duration dbg)

/-- Total points recorded in an answer log. -/
def sumPoints (answers : List UserAnswer) : Nat :=
  (answers.map (fun a => a.pointsEarned)).sum

/-! ## String helpers modelling JavaScript string methods -/

/-- JavaScript `s.startsWith(p)`. -/
def jsStartsWith (s p : String) : Bool :=
  p.data.isPrefixOf s.data

/-- JavaScript `s.includes(t)`. -/
def jsIncludes (s t : String) : Bool :=
  decide (t.data <:+: s.data)

/-! ## Package codec (src/utils/db.ts) -/

/-- The bytes and MIME type fetched for a media reference
(`blob` / `blob.type` in the source). -/
structure ResolvedMedia where
  bytes : List Nat
  mime : String
deriving DecidableEq

/-- The `items` field of a parsed manifest: absent, present but not an
array, or an array of items. -/
inductive ItemsField where
  | missing
  | notList
  | list (xs : List MediaItem)
deriving DecidableEq

/-- Payload of one zip entry: raw media bytes, or a manifest (the JSON
text of a manifest file, kept in parsed form). -/
inductive ZipData where
  | bytes (b : List Nat)
  | manifest (m : ItemsField)
deriving DecidableEq

/-- Bytes of a zip entry as read back by `mediaFile.async("blob")`.  For a
manifest entry these are the character codes of a serialization of its
content; no claim depends on their exact value. -/
def zipDataBytes : ZipData → List Nat
  | ZipData.bytes b => b
  | ZipData.manifest ItemsField.missing => []
  | ZipData.manifest ItemsField.notList => []
  | ZipData.manifest (ItemsField.list xs) =>
      (xs.map (fun i => (i.id.data.map Char.toNat) ++ (i.url.data.map Char.toNat))).flatten

/-- `zip.file(name)` on JSZip's name-keyed dictionary: the last write to a
name wins, so look the name up from the back. -/
def zipFind (entries : List (String × ZipData)) (name : String) : Option ZipData :=
  entries.foldl (fun acc e => if e.1 == name then some e.2 else acc) none

/-- The result of `FileReader.readAsDataURL` on a blob with the given
bytes: an inline `data:` payload encoding exactly those bytes. -/
def encodeDataUrl (b : List Nat) : String :=
  "data:application/octet-stream;base64," ++ String.intercalate "," (b.map toString)

/-- `getExtension(mimeType, url, itemType)` from src/utils/db.ts (the
`url` argument is unused by the source).  The empty MIME string is falsy
in JavaScript, hence the leading test. -/
def getExtension (mimeType : String) (itemType : MediaType) : String :=
  if mimeType ≠ "" then
    let cleanMime := (((mimeType.splitOn ";").headD "").trim).toLower
    if cleanMime == "image/jpeg" then "jpg"
    else if cleanMime == "image/jpg" then "jpg"
    else if cleanMime == "image/png" then "png"
    else if cleanMime == "image/gif" then "gif"
    else if cleanMime == "image/webp" then "webp"
    else if cleanMime == "video/mp4" then "mp4"
    else if cleanMime == "video/webm" then "webm"
    else if jsIncludes cleanMime "jpeg" || jsIncludes cleanMime "jpg" then "jpg"
    else if jsIncludes cleanMime "png" then "png"
    else if jsIncludes cleanMime "mp4" then "mp4"
    else match itemType with
         | MediaType.video => "mp4"
         | MediaType.image => "jpg"
  else match itemType with
       | MediaType.video => "mp4"
       | MediaType.image => "jpg"

/-- The fetch-and-blob step of `exportGamePack` for one item: only
`data:` and `media/` references are fetched; `resolver` abstracts the
`fetch` and may fail (the source catches and logs). -/
def resolveMedia (resolver : String → Option ResolvedMedia) (url : String) :
    Option ResolvedMedia :=
  if jsStartsWith url "data:" || jsStartsWith url "media/" then resolver url else none

/-- The media-folder zip entry `exportGamePack` writes for one item, when
its media resolves. -/
def exportMediaEntry (resolver : String → Option ResolvedMedia) (item : MediaItem) :
    Option (String × ZipData) :=
  match resolveMedia resolver item.url with
  | some rm =>
      let filename := item.id ++ "." ++ getExtension rm.mime item.type
      some ("media/" ++ filename, ZipData.bytes rm.bytes)
  | none => none

/-- The manifest copy of one item written by `exportGamePack`: the
`mediaRef` is rewritten to the in-archive path when the media resolved,
and left unchanged otherwise. -/
def exportProcessItem (resolver : String → Option ResolvedMedia) (item : MediaItem) :
    MediaItem :=
  match resolveMedia resolver item.url with
  | some rm =>
      let filename := item.id ++ "." ++ getExtension rm.mime item.type
      { item with url := "media/" ++ filename }
  | none => item

/-- `exportGamePack` from src/utils/db.ts, over an already-gathered item
collection: fails on an empty collection, otherwise produces the zip
entry list (media files in item order, then the manifest under its two
alias names with identical content). -/
def exportGamePack (resolver : String → Option ResolvedMedia) (items : List MediaItem) :
    Except String (List (String × ZipData)) :=
  if items.length == 0 then Except.error "No items to export"
  else
    let st := items.foldl
      (fun (acc : List (String × ZipData) × List MediaItem) item =>
        match resolveMedia resolver item.url with
        | some rm =>
            let filename := item.id ++ "." ++ getExtension rm.mime item.type
            (acc.1 ++ [("media/" ++ filename, ZipData.bytes rm.bytes)],
             acc.2 ++ [{ item with url := "media/" ++ filename }])
        | none => (acc.1, acc.2 ++ [item]))
      ([], [])
    Except.ok (st.1 ++
      [("game_data.json", ZipData.manifest (ItemsField.list st.2)),
       ("data.json", ZipData.manifest (ItemsField.list st.2))])

/-- One iteration of the import loop of `importGamePack`: `media/`
references are looked up in the archive and rewritten to an inline data
payload, inline `data:` references are stored directly, everything else
is skipped.  `saveItem` marks every stored copy as custom. -/
def importItem (entries : List (String × ZipData)) (item : MediaItem) : Option MediaItem :=
  if jsStartsWith item.url "media/" then
    match zipFind entries item.url with
    | some d => some { item with url := encodeDataUrl (zipDataBytes d), isCustom := some true }
    | none => none
  else if jsStartsWith item.url "data:" then
    some { item with isCustom := some true }
  else none

/-- `importGamePack` from src/utils/db.ts: locate a manifest (import name
first, local-install name second), validate its `items` field, then
process the items; returns the imported count and, as the model of the
`saveItem` calls, the stored copies in order.  A manifest entry holding
non-JSON bytes makes `JSON.parse` throw its own `SyntaxError`. -/
def importGamePack (entries : List (String × ZipData)) :
    Except String (Nat × List MediaItem) :=
  let manifestFile :=
    match zipFind entries "data.json" with
    | some d => some d
    | none => zipFind entries "game_data.json"
  match manifestFile with
  | none => Except.error "Invalid Game Pack: missing data.json or game_data.json"
  | some (ZipData.bytes _) => Except.error "SyntaxError: unexpected token in JSON"
  | some (ZipData.manifest ItemsField.missing) =>
      Except.error "Invalid Game Pack: corrupt data format"
  | some (ZipData.manifest ItemsField.notList) =>
      Except.error "Invalid Game Pack: corrupt data format"
  | some (ZipData.manifest (ItemsField.list xs)) =>
      Except.ok (xs.foldl
        (fun (acc : Nat × List MediaItem) item =>
          match importItem entries item with
          | some saved => (acc.1 + 1, acc.2 ++ [saved])
          | none => acc)
        (0, []))

/-! ## Content store (src/utils/db.ts, `CustomContentManager`) -/

/-- One `map.set(k, v)` step on a JavaScript `Map` represented as an
insertion-ordered association list: replace in place, or append. -/
def mapSet (m : List (String × MediaItem)) (k : String) (v : MediaItem) :
    List (String × MediaItem) :=
  if m.any (fun p => p.1 == k) then
    m.map (fun p => if p.1 == k then (k, v) else p)
  else m ++ [(k, v)]

/-- `loadLocalConfig`: every bundled-manifest item is returned marked as
custom content. -/
def loadLocalConfig (bundled : List MediaItem) : List MediaItem :=
  bundled.map (fun item => { item with isCustom := some true })

/-- `getAllItems`: build an id-keyed map from the bundled manifest first,
overwrite with the durable-store items, return the values.  `dbItems` is
the IndexedDB contents, `bundled` the local `game_data.json` items. -/
def getAllItems (dbItems bundled : List MediaItem) : List MediaItem :=
  let localItems := loadLocalConfig bundled
  let m1 := localItems.foldl (fun m item => mapSet m item.id item) []
  let m2 := dbItems.foldl (fun m item => mapSet m item.id item) m1
  m2.map (fun p => p.2)

/-- `saveItem` on the IndexedDB object store (`keyPath: 'id'`): upsert by
id, always marking the stored copy as custom. -/
def saveItem (store : List MediaItem) (item : MediaItem) : List MediaItem :=
  let marked := { item with isCustom := some true }
  if store.any (fun i => i.id == item.id) then
    store.map (fun i => if i.id == item.id then marked else i)
  else store ++ [marked]

/-! ## Idle watchdog (src/components/ReviewScreen.tsx) -/

/-- Milliseconds of inactivity before the warning appears. -/
def IDLE_TIMEOUT : Nat := 60000

/-- Milliseconds of grace once the warning is showing. -/
def COUNTDOWN_DURATION : Nat := 15000

/-- The watchdog state of `ReviewScreen`: the warning flag, the two
pending `setTimeout` deadlines (absolute ms), whether `onBackToHome` has
fired, and the throttle timestamp of the activity listener. -/
structure WatchdogState where
  warningVisible : Bool
  idleDeadline : Option Nat
  graceDeadline : Option Nat
  expired : Bool
  lastRun : Nat
deriving DecidableEq

/-- `startIdleTimer` at time `t`: clear both timers and schedule the idle
timeout `IDLE_TIMEOUT` from now. -/
def startIdleTimer (t : Nat) (s : WatchdogState) : WatchdogState :=
  { s with idleDeadline := some (t + IDLE_TIMEOUT), graceDeadline := none }

/-- The mount-time state: `startIdleTimer` on a fresh screen. -/
def watchdogInit (t : Nat) : WatchdogState :=
  startIdleTimer t
    { warningVisible := false, idleDeadline := none, graceDeadline := none,
      expired := false, lastRun := 0 }

/-- Deliver every timer whose deadline is at or before `t`: the idle
timeout shows the warning and immediately schedules the grace timeout
`COUNTDOWN_DURATION` after its own fire time; the grace timeout invokes
the abandonment callback. -/
def processFires (t : Nat) (s : WatchdogState) : WatchdogState :=
  let s1 :=
    match s.idleDeadline with
    | some d =>
        if d ≤ t then
          { s with warningVisible := true, idleDeadline := none,
                   graceDeadline := some (d + COUNTDOWN_DURATION) }
        else s
    | none => s
  match s1.graceDeadline with
  | some d => if d ≤ t then { s1 with expired := true, graceDeadline := none } else s1
  | none => s1

/-- `handleUserActivity` at time `t`: ignored while the warning is
visible, otherwise restarts the idle timer. -/
def handleUserActivity (t : Nat) (s : WatchdogState) : WatchdogState :=
  if s.warningVisible then s else startIdleTimer t s

/-- The throttled activity listener: runs `handleUserActivity` at most
once per second, updating `lastRun` whenever it runs. -/
def throttledActivity (t : Nat) (s : WatchdogState) : WatchdogState :=
  if t - s.lastRun > 1000 then { handleUserActivity t s with lastRun := t } else s

/-- `handleResumeGame` at time `t`: hide the warning and restart the idle
timer (which also cancels the pending grace timeout). -/
def handleResumeGame (t : Nat) (s : WatchdogState) : WatchdogState :=
  startIdleTimer t { s with warningVisible := false }

/-! ## Concrete sample data used by witnesses and counterexamples -/

/-- A sample authentic item. -/
def sampleReal : MediaItem :=
  { id := "r1", type := MediaType.image, url := "data:r", isReal := true,
    title := "Harbour at dusk", explanation := "", tips := [], category := "Photography",
    shortTip := none, aiModel := none, isCustom := none }

/-- A sample non-authentic item. -/
def sampleAI : MediaItem :=
  { id := "a1", type := MediaType.image, url := "data:a", isReal := false,
    title := "Synthetic portrait", explanation := "", tips := [], category := "Deep Fake",
    shortTip := none, aiModel := some "gen-v1", isCustom := none }

/-- No debug overrides. -/
def noDebug : GameDebugConfig := { initialStreak := none, forceBonusRound := none }

/-- A session state at main-timer expiry with the bonus qualification
latched. -/
def qualifiedState : SessionState :=
  { initialState 0 noDebug with earnedBonus := true }

/-- A resolver for the sample items: their inline payloads resolve to
fixed bytes. -/
def sampleResolver : String → Option ResolvedMedia :=
  fun u =>
    if u == "data:r" then some { bytes := [10, 20], mime := "image/png" }
    else if u == "data:a" then some { bytes := [30], mime := "image/jpeg" }
    else none

/-! # Theorems -/

/-! ## C1: per-round streak and scoring -/

/-- C1: for every accepted `submitAnswer` call (processing lock free,
current item present): a correct guess increments the streak by exactly 1
and adds `100 * (4 if the post-increment streak is at least 7, else 2 if
at least 3, else 1)` points to the score, recording exactly that value in
the appended answer record; a wrong guess resets the streak to 0 and
awards 0 points. -/
theorem handleAnswer_streak_scoring (items : List MediaItem) (s : SessionState) (g : Bool)
    (item : MediaItem) (hp : s.isProcessing = false)
    (hi : items[s.currentIndex]? = some item) :
    (g = item.isReal →
       (handleAnswer items s g).1.streak = s.streak + 1 ∧
       (handleAnswer items s g).1.score =
         s.score + 100 * (if s.streak + 1 ≥ 7 then 4 else if s.streak + 1 ≥ 3 then 2 else 1) ∧
       (handleAnswer items s g).1.answers =
         s.answers ++ [{ itemId := item.id, guessedReal := g, isCorrect := true,
                         timeTaken := 0,
                         pointsEarned :=
                           100 * (if s.streak + 1 ≥ 7 then 4
                                  else if s.streak + 1 ≥ 3 then 2 else 1) }]) ∧
    (g ≠ item.isReal →
       (handleAnswer items s g).1.streak = 0 ∧
       (handleAnswer items s g).1.score = s.score ∧
       (handleAnswer items s g).1.answers =
         s.answers ++ [{ itemId := item.id, guessedReal := g, isCorrect := false,
                         timeTaken := 0, pointsEarned := 0 }]) := by
  constructor
  · intro hg
    subst hg
    simp [handleAnswer, hp, hi, BASE_POINTS, MEGA_STREAK_THRESHOLD, STREAK_THRESHOLD,
      BONUS_ROUND_QUALIFIER]
  · intro hg
    have hbeq : (g == item.isReal) = false := by
      simp [hg]
    simp [handleAnswer, hp, hi, hbeq, BASE_POINTS, MEGA_STREAK_THRESHOLD, STREAK_THRESHOLD,
      BONUS_ROUND_QUALIFIER]

/-- Witness for C1 at a concrete input. -/
theorem handleAnswer_streak_scoring_witness :
    (initialState 30 noDebug).isProcessing = false ∧
    (handleAnswer [sampleReal] (initialState 30 noDebug) true).1.streak =
      (initialState 30 noDebug).streak + 1 :=
  ⟨by decide,
   ((handleAnswer_streak_scoring [sampleReal] (initialState 30 noDebug) true sampleReal
       (by decide) (by decide)).1 (by decide)).1⟩

/-! ## C3: bonus-round submission and timeout -/

/-- C3: the bonus result is set at most once — with a result present,
both `submitBonusAnswer` and the bonus timer are no-ops.  With no result
yet, a submission succeeds exactly when the selected item is
non-authentic (success adds 1000 points, failure adds 0), and an explicit
selection appends exactly one answer record; the bonus timer reaching 0
with no prior selection sets a failure result, changes no points, and
appends no record. -/
theorem bonus_submission_timeout (s : SessionState) (item : MediaItem) :
    (s.bonusResult ≠ none →
       handleBonusAnswer s item = s ∧ bonusTimerEffect s = s) ∧
    (s.bonusResult = none →
       (handleBonusAnswer s item).bonusResult =
         some (if item.isReal then BonusRes.fail else BonusRes.success) ∧
       (handleBonusAnswer s item).score = s.score + (if item.isReal then 0 else 1000) ∧
       (handleBonusAnswer s item).answers =
         s.answers ++ [{ itemId := item.id, guessedReal := false, isCorrect := !item.isReal,
                         timeTaken := 0, pointsEarned := if item.isReal then 0 else 1000 }]) ∧
    (s.showBonusRound = true → s.bonusResult = none → s.bonusTimer ≤ 0 →
       (bonusTimerEffect s).bonusResult = some BonusRes.fail ∧
       (bonusTimerEffect s).answers = s.answers ∧
       (bonusTimerEffect s).score = s.score) := by
  refine ⟨?_, ?_, ?_⟩
  · intro hr
    constructor
    · simp [handleBonusAnswer, hr]
    · simp [bonusTimerEffect, hr]
  · intro hr
    cases hreal : item.isReal with
    | true =>
        simp [handleBonusAnswer, hr, hreal, handleBonusResult, BONUS_POINTS]
    | false =>
        simp [handleBonusAnswer, hr, hreal, handleBonusResult, BONUS_POINTS]
  · intro hb hr ht
    simp [bonusTimerEffect, hb, hr, ht, handleBonusResult, BONUS_POINTS]

/-- Witness for C3 at a concrete input: during the bonus round, picking
the non-authentic item succeeds and awards 1000. -/
theorem bonus_submission_timeout_witness :
    qualifiedState.bonusResult = none ∧
    (handleBonusAnswer qualifiedState sampleAI).score = qualifiedState.score + 1000 :=
  ⟨by decide,
   by
     have h :=
       ((bonus_submission_timeout qualifiedState sampleAI).2.1 (by decide)).2.1
     simpa using h⟩

/-! ## C6: export of an empty collection -/

/-- C6: exporting an empty item collection fails with the named
"nothing to export" error; no archive value is produced. -/
theorem exportGamePack_empty (resolver : String → Option ResolvedMedia) :
    exportGamePack resolver [] = Except.error "No items to export" := by
  simp [exportGamePack]

/-! ## C9 (corrected): no-op guarantees of submitAnswer -/

/-- C9 counterexample: contrary to the claim, a `submitAnswer` call with
no current item (empty queue, processing lock free) raises a `TypeError`
instead of being a no-op — the source reads `currentItem.isReal` without
a guard. -/
theorem handleAnswer_nocurrent_cex :
    (handleAnswer [] (initialState 30 noDebug) true).2 =
      some "TypeError: Cannot read properties of undefined (reading isReal)" := by
  decide

/-- C9 amended: a `submitAnswer` call while a prior answer is still being
processed is silently ignored (state unchanged, nothing thrown, nothing
queued), and no exception is raised whenever a current item exists; but a
non-processing call with no current item throws a `TypeError` rather than
being a no-op. -/
theorem handleAnswer_noop_amended (items : List MediaItem) (s : SessionState) (g : Bool) :
    (s.isProcessing = true → handleAnswer items s g = (s, none)) ∧
    (s.currentIndex < items.length → (handleAnswer items s g).2 = none) ∧
    (s.isProcessing = false → items.length ≤ s.currentIndex →
       (handleAnswer items s g).2 =
         some "TypeError: Cannot read properties of undefined (reading isReal)") := by
  refine ⟨?_, ?_, ?_⟩
  · intro hp
    simp [handleAnswer, hp]
  · intro hidx
    by_cases hp : s.isProcessing
    · simp [handleAnswer, hp]
    · have hsome : items[s.currentIndex]? = some items[s.currentIndex] :=
        List.getElem?_eq_getElem hidx
      simp [handleAnswer, hp, hsome]
  · intro hp hidx
    have hnone : items[s.currentIndex]? = none := by
      rw [List.getElem?_eq_none_iff]
      exact hidx
    simp [handleAnswer, hp, hnone]

/-- Witness for C9 (amended) at a concrete input. -/
theorem handleAnswer_noop_amended_witness :
    (initialState 30 noDebug).currentIndex < [sampleReal].length ∧
    (handleAnswer [sampleReal] (initialState 30 noDebug) true).2 = none :=
  ⟨by decide,
   (handleAnswer_noop_amended [sampleReal] (initialState 30 noDebug) true).2.1 (by decide)⟩

/-! ## C2 (corrected): bonus round at main-timer expiry -/

/-- C2 counterexample: with the qualification earned, at main-timer expiry
over a pool with no authentic item at all (one non-authentic item), the
code does not end the session — it enters the bonus round using the
fallback pick `items[0]`. -/
theorem bonus_pool_fallback_cex :
    (([sampleAI].filter (fun i => i.isReal)).length = 0) ∧
    (mainTimerEffect [sampleAI] 0 0 false qualifiedState).2 = false ∧
    (mainTimerEffect [sampleAI] 0 0 false qualifiedState).1.showBonusRound = true := by
  decide

/-- On a non-empty pool, `startBonusRound` always enters the bonus round:
the fallback `items[0]` makes both picks defined. -/
theorem startBonusRound_cons (x : MediaItem) (xs : List MediaItem) (r a : Nat) (flip : Bool)
    (s : SessionState) :
    (startBonusRound (x :: xs) r a flip s).2 = false ∧
    (startBonusRound (x :: xs) r a flip s).1.showBonusRound = true := by
  have hpick : ∀ (avail : List MediaItem) (k : Nat),
      ∃ v, (if avail.length > 0 then avail[k % avail.length]? else (x :: xs)[0]?) = some v := by
    intro avail k
    by_cases hpos : avail.length > 0
    · rw [if_pos hpos, List.getElem?_eq_getElem (Nat.mod_lt _ hpos)]
      exact ⟨_, rfl⟩
    · rw [if_neg hpos]
      exact ⟨x, by simp⟩
  obtain ⟨re, hre⟩ := hpick ((x :: xs).filter (fun i => i.isReal)) r
  obtain ⟨ai, hai⟩ := hpick ((x :: xs).filter (fun i => !i.isReal)) a
  simp only [startBonusRound]
  rw [hre, hai]
  exact ⟨rfl, rfl⟩

/-- C2 amended: when the main timer reaches 0 with the bonus
qualification earned (and no bonus result yet), the session ends
immediately instead of entering the bonus round exactly when the item
pool is empty; when the pool is non-empty the bonus round starts even if
an item of one authenticity is missing (the fallback picks the pool's
first item for that slot). -/
theorem bonus_start_or_end (items : List MediaItem) (r a : Nat) (flip : Bool)
    (s : SessionState) (hb : s.showBonusRound = false) (ht : s.timeLeft ≤ 0)
    (he : s.earnedBonus = true) (hr : s.bonusResult = none) :
    ((mainTimerEffect items r a flip s).2 = true ↔ items = []) ∧
    (items ≠ [] → (mainTimerEffect items r a flip s).1.showBonusRound = true) := by
  have hmain : mainTimerEffect items r a flip s = startBonusRound items r a flip s := by
    simp [mainTimerEffect, hb, ht, he, hr]
  rw [hmain]
  cases items with
  | nil =>
      constructor
      · simp [startBonusRound]
      · intro h
        exact absurd rfl h
  | cons x xs =>
      obtain ⟨hend, hshow⟩ := startBonusRound_cons x xs r a flip s
      constructor
      · rw [hend]
        simp
      · intro _
        exact hshow

/-- Witness for C2 (amended): a pool with both kinds of items enters the
bonus round, and an empty pool ends the session. -/
theorem bonus_start_or_end_witness :
    qualifiedState.showBonusRound = false ∧
    (mainTimerEffect [sampleReal, sampleAI] 0 0 false qualifiedState).1.showBonusRound = true :=
  ⟨by decide,
   (bonus_start_or_end [sampleReal, sampleAI] 0 0 false qualifiedState
       (by decide) (by decide) (by decide) (by decide)).2 (by decide)⟩

/-! ## C10: the score always equals the sum of the recorded points -/

/-- Every single controller step preserves the score/answer-log
accounting invariant. -/
theorem applyOp_preserves_accounting (items : List MediaItem) (s : SessionState)
    (op : SessionOp) (h : s.score = sumPoints s.answers) :
    (applyOp items s op).score = sumPoints (applyOp items s op).answers := by
  cases op with
  | answer g =>
      simp only [applyOp, handleAnswer]
      by_cases hp : s.isProcessing
      · simp [hp, h]
      · simp only [hp, Bool.false_eq_true, if_false]
        cases hi : items[s.currentIndex]? with
        | none => simpa using h
        | some item =>
            by_cases hc : (g == item.isReal) = true
            · simp [hc, sumPoints, h]
            · simp only [Bool.not_eq_true] at hc
              simp [hc, sumPoints, h]
  | presentationDone =>
      simp only [applyOp, afterAnswerDelay]
      by_cases hidx : s.currentIndex < items.length - 1
      · simp [hidx, h]
      · simp [hidx, h]
  | bonusAnswer item =>
      simp only [applyOp, handleBonusAnswer]
      by_cases hr : s.bonusResult = none
      · simp only [hr, ne_eq, not_true_eq_false, if_false, ite_not]
        by_cases hc : item.isReal
        · simp [hc, handleBonusResult, sumPoints, h]
        · simp only [Bool.not_eq_true] at hc
          simp [hc, handleBonusResult, sumPoints, h, BONUS_POINTS]
      · simp [hr, h]
  | mainTick r a flip =>
      simp only [applyOp, mainTimerEffect]
      by_cases hb : s.showBonusRound
      · simp [hb, h]
      · simp only [hb, Bool.false_eq_true, if_false]
        by_cases ht : s.timeLeft ≤ 0
        · simp only [ht, if_true]
          by_cases hq : s.earnedBonus && s.bonusResult = none
          · simp only [hq, if_true, startBonusRound]
            split
            · simpa using h
            · simpa using h
          · simp [hq, h]
        · simp [ht, h]
  | bonusTick =>
      simp only [applyOp, bonusTimerEffect]
      split
      · exact h
      · split
        · simp [handleBonusResult, h]
        · simpa using h

/-- C10: at every point during a session — after any sequence of
controller steps, the bonus phase included — the running score equals the
sum of the `pointsEarned` fields over the answer records appended so far,
so a summary recomputed from the log matches the in-game score. -/
theorem score_matches_answer_log (items : List MediaItem) (duration : Int)
    (dbg : GameDebugConfig) (ops : List SessionOp) :
    (sessionRun items duration dbg ops).score =
      sumPoints (sessionRun items duration dbg ops).answers := by
  have hrun : ∀ (l : List SessionOp) (s : SessionState), s.score = sumPoints s.answers →
      (l.foldl (applyOp items) s).score = sumPoints (l.foldl (applyOp items) s).answers := by
    intro l
    induction l with
    | nil => intro s h; exact h
    | cons op l ih =>
        intro s h
        exact ih (applyOp items s op) (applyOp_preserves_accounting items s op h)
  exact hrun ops (initialState duration dbg) (by simp [initialState, sumPoints])

/-! ## C8: idle watchdog timing -/

/-- C8: from a fresh reset at time `t0` with no further activity, the
warning is visible exactly from `t0 + 60000` ms and the abandonment
callback has fired exactly from `t0 + 75000` ms; qualifying activity
restarts the 60 s idle countdown only while the warning is hidden and is
ignored (beyond the throttle timestamp) while the warning is showing; a
resume action at any time cancels the pending grace timeout and restarts
the 60 s idle countdown from zero. -/
theorem idle_watchdog_timing (t0 t u : Nat) (s : WatchdogState) :
    ((processFires t (watchdogInit t0)).warningVisible = decide (t0 + IDLE_TIMEOUT ≤ t)) ∧
    ((processFires t (watchdogInit t0)).expired =
       decide (t0 + IDLE_TIMEOUT + COUNTDOWN_DURATION ≤ t)) ∧
    (s.warningVisible = false →
       handleUserActivity u s =
         { s with idleDeadline := some (u + IDLE_TIMEOUT), graceDeadline := none }) ∧
    (s.warningVisible = true → handleUserActivity u s = s) ∧
    (s.warningVisible = true →
       (throttledActivity u s).warningVisible = true ∧
       (throttledActivity u s).idleDeadline = s.idleDeadline ∧
       (throttledActivity u s).graceDeadline = s.graceDeadline) ∧
    ((handleResumeGame u s).graceDeadline = none ∧
     (handleResumeGame u s).idleDeadline = some (u + IDLE_TIMEOUT) ∧
     (handleResumeGame u s).warningVisible = false) := by
  refine ⟨?_, ?_, ?_, ?_, ?_, ?_, ?_, ?_⟩
  · by_cases hidle : t0 + IDLE_TIMEOUT ≤ t
    · by_cases hgrace : t0 + IDLE_TIMEOUT + COUNTDOWN_DURATION ≤ t
      · simp [processFires, watchdogInit, startIdleTimer, hidle, hgrace]
      · simp [processFires, watchdogInit, startIdleTimer, hidle, hgrace]
    · have hgrace : ¬ (t0 + IDLE_TIMEOUT + COUNTDOWN_DURATION ≤ t) := by omega
      simp [processFires, watchdogInit, startIdleTimer, hidle, hgrace]
  · by_cases hidle : t0 + IDLE_TIMEOUT ≤ t
    · by_cases hgrace : t0 + IDLE_TIMEOUT + COUNTDOWN_DURATION ≤ t
      · simp [processFires, watchdogInit, startIdleTimer, hidle, hgrace]
      · simp [processFires, watchdogInit, startIdleTimer, hidle, hgrace]
    · have hgrace : ¬ (t0 + IDLE_TIMEOUT + COUNTDOWN_DURATION ≤ t) := by omega
      simp [processFires, watchdogInit, startIdleTimer, hidle, hgrace]
  · intro hw
    simp [handleUserActivity, hw, startIdleTimer]
  · intro hw
    simp [handleUserActivity, hw]
  · intro hw
    by_cases hth : u - s.lastRun > 1000
    · simp [throttledActivity, hth, handleUserActivity, hw]
    · simp [throttledActivity, hth, hw]
  · simp [handleResumeGame, startIdleTimer]
  · simp [handleResumeGame, startIdleTimer]
  · simp [handleResumeGame, startIdleTimer]

/-- Witness for C8 at a concrete input: an activity event at 5000 ms
while the warning is hidden restarts the idle countdown. -/
theorem idle_watchdog_timing_witness :
    (watchdogInit 0).warningVisible = false ∧
    handleUserActivity 5000 (watchdogInit 0) =
      { watchdogInit 0 with idleDeadline := some (5000 + IDLE_TIMEOUT), graceDeadline := none } :=
  ⟨by decide,
   (idle_watchdog_timing 0 0 5000 (watchdogInit 0)).2.2.1 (by decide)⟩

/-! ## C5: store entries override bundled entries in getAllItems

Association-list lemmas about `mapSet` (one `Map.set` step) and the two
insertion folds of `getAllItems`. -/

/-- Looking up `k` after replacing every `k`-keyed pair. -/
theorem find_map_replace (m : List (String × MediaItem)) (k : String) (v : MediaItem) :
    (m.map (fun p => if p.1 == k then (k, v) else p)).find? (fun p => p.1 == k) =
      if m.any (fun p => p.1 == k) then some (k, v) else none := by
  induction m with
  | nil => rfl
  | cons p m ih =>
      simp only [List.map_cons]
      by_cases hp : (p.1 == k) = true
      · rw [if_pos hp,
          @List.find?_cons_of_pos _ (fun p => p.1 == k) (k, v) _ (by simp),
          List.any_cons, hp]
        simp
      · have hpf : (p.1 == k) = false := by
          simp only [Bool.not_eq_true] at hp
          exact hp
        rw [if_neg hp, @List.find?_cons_of_neg _ (fun p => p.1 == k) p _ hp,
          List.any_cons, hpf, Bool.false_or]
        exact ih

/-- Looking up a different key is unaffected by replacing `k`-keyed
pairs. -/
theorem find_map_replace_other (m : List (String × MediaItem)) (k : String) (v : MediaItem)
    (x : String) (hx : x ≠ k) :
    (m.map (fun p => if p.1 == k then (k, v) else p)).find? (fun p => p.1 == x) =
      m.find? (fun p => p.1 == x) := by
  induction m with
  | nil => rfl
  | cons p m ih =>
      simp only [List.map_cons]
      by_cases hp : (p.1 == k) = true
      · have hpk : p.1 = k := by simpa using hp
        have hhead : ¬ (((k, v).1 == x) = true) := by
          simp only [beq_iff_eq]
          exact fun h => hx h.symm
        have horig : ¬ ((p.1 == x) = true) := by
          rw [hpk]
          simp only [beq_iff_eq]
          exact fun h => hx h.symm
        rw [if_pos hp,
          @List.find?_cons_of_neg _ (fun p => p.1 == x) (k, v) _ hhead,
          @List.find?_cons_of_neg _ (fun p => p.1 == x) p _ horig]
        exact ih
      · rw [if_neg hp]
        by_cases hpx : (p.1 == x) = true
        · rw [@List.find?_cons_of_pos _ (fun p => p.1 == x) p _ hpx,
            @List.find?_cons_of_pos _ (fun p => p.1 == x) p _ hpx]
        · rw [@List.find?_cons_of_neg _ (fun p => p.1 == x) p _ hpx,
            @List.find?_cons_of_neg _ (fun p => p.1 == x) p _ hpx]
          exact ih

/-- `mapSet` then looking up the written key yields the written value. -/
theorem find_mapSet_self (m : List (String × MediaItem)) (k : String) (v : MediaItem) :
    (mapSet m k v).find? (fun p => p.1 == k) = some (k, v) := by
  unfold mapSet
  split
  · rename_i hany
    rw [find_map_replace, if_pos hany]
  · rename_i hany
    have hnone : m.find? (fun p => p.1 == k) = none := by
      rw [List.find?_eq_none]
      intro p hp
      intro hpk
      exact hany (List.any_eq_true.mpr ⟨p, hp, hpk⟩)
    rw [List.find?_append, hnone]
    simp

/-- `mapSet` leaves lookups of other keys unchanged. -/
theorem find_mapSet_other (m : List (String × MediaItem)) (k : String) (v : MediaItem)
    (x : String) (hx : x ≠ k) :
    (mapSet m k v).find? (fun p => p.1 == x) = m.find? (fun p => p.1 == x) := by
  unfold mapSet
  split
  · exact find_map_replace_other m k v x hx
  · have hkx : ((k, v).1 == x) = false := by
      have : ¬ (k = x) := fun h => hx h.symm
      simpa using this
    rw [List.find?_append]
    cases hm : m.find? (fun p => p.1 == x) with
    | some p => rfl
    | none => simp [hkx]

/-- Folding inserts whose ids all differ from `x` does not change the
lookup of `x`. -/
theorem find_insAll_not_mem (l : List MediaItem) (x : String) :
    ∀ m : List (String × MediaItem), (∀ i ∈ l, i.id ≠ x) →
      ((l.foldl (fun m item => mapSet m item.id item) m).find? (fun p => p.1 == x)) =
        m.find? (fun p => p.1 == x) := by
  induction l with
  | nil => intro m _; rfl
  | cons i l ih =>
      intro m hx
      simp only [List.foldl_cons]
      rw [ih (mapSet m i.id i) (fun j hj => hx j (List.mem_cons_of_mem i hj))]
      exact find_mapSet_other m i.id i x (Ne.symm (hx i (List.mem_cons_self i l)))

/-- After folding inserts of a list with pairwise distinct ids, looking
up the id of a member yields that member. -/
theorem find_insAll_mem (l : List MediaItem) (it : MediaItem) :
    ∀ m : List (String × MediaItem), (l.map (fun i => i.id)).Nodup → it ∈ l →
      ((l.foldl (fun m item => mapSet m item.id item) m).find? (fun p => p.1 == it.id)) =
        some (it.id, it) := by
  induction l with
  | nil => intro m _ hmem; cases hmem
  | cons i l ih =>
      intro m hnd hmem
      simp only [List.foldl_cons]
      have hnd2 : (∀ x ∈ l, ¬ x.id = i.id) ∧ (l.map (fun i => i.id)).Nodup := by
        simpa using hnd
      rcases List.mem_cons.mp hmem with h | h
      · rw [h]
        rw [find_insAll_not_mem l i.id (mapSet m i.id i) hnd2.1]
        exact find_mapSet_self m i.id i
      · exact ih (mapSet m i.id i) hnd2.2 h

/-- `mapSet` with a pair whose key is the value's id preserves the
key-equals-id invariant. -/
theorem mapSet_keysOk (m : List (String × MediaItem)) (i : MediaItem)
    (hk : ∀ p ∈ m, p.1 = p.2.id) :
    ∀ p ∈ mapSet m i.id i, p.1 = p.2.id := by
  unfold mapSet
  split
  · intro p hp
    obtain ⟨q, hq, rfl⟩ := List.mem_map.mp hp
    by_cases h : (q.1 == i.id) = true
    · rw [if_pos h]
    · rw [if_neg h]
      exact hk q hq
  · intro p hp
    rcases List.mem_append.mp hp with h | h
    · exact hk p h
    · have : p = (i.id, i) := by simpa using h
      subst this
      rfl

/-- `mapSet` with a pair whose key is the value's id preserves key
uniqueness. -/
theorem mapSet_keys_nodup (m : List (String × MediaItem)) (i : MediaItem)
    (hnd : (m.map (fun p => p.1)).Nodup) :
    ((mapSet m i.id i).map (fun p => p.1)).Nodup := by
  unfold mapSet
  split
  · rename_i hany
    have hkeys : (m.map (fun p => if p.1 == i.id then (i.id, i) else p)).map (fun p => p.1) =
        m.map (fun p => p.1) := by
      rw [List.map_map]
      apply List.map_congr_left
      intro p _
      simp only [Function.comp_apply]
      by_cases h : (p.1 == i.id) = true
      · have hpk : p.1 = i.id := by simpa using h
        rw [if_pos h]
        exact hpk.symm
      · rw [if_neg h]
    rw [hkeys]
    exact hnd
  · rename_i hany
    have hnew : i.id ∉ m.map (fun p => p.1) := by
      intro hmem
      obtain ⟨p, hp, hp1⟩ := List.mem_map.mp hmem
      exact hany (List.any_eq_true.mpr ⟨p, hp, by simp [hp1]⟩)
    rw [List.map_append]
    simp [List.nodup_append, hnd, hnew]

/-- The insertion fold preserves the key-equals-id invariant. -/
theorem insAll_keysOk (l : List MediaItem) :
    ∀ m : List (String × MediaItem), (∀ p ∈ m, p.1 = p.2.id) →
      ∀ p ∈ l.foldl (fun m item => mapSet m item.id item) m, p.1 = p.2.id := by
  induction l with
  | nil => intro m hk; exact hk
  | cons i l ih =>
      intro m hk
      simp only [List.foldl_cons]
      exact ih (mapSet m i.id i) (mapSet_keysOk m i hk)

/-- The insertion fold preserves key uniqueness. -/
theorem insAll_keys_nodup (l : List MediaItem) :
    ∀ m : List (String × MediaItem), ((m.map (fun p => p.1)).Nodup) →
      ((l.foldl (fun m item => mapSet m item.id item) m).map (fun p => p.1)).Nodup := by
  induction l with
  | nil => intro m hnd; exact hnd
  | cons i l ih =>
      intro m hnd
      simp only [List.foldl_cons]
      exact ih (mapSet m i.id i) (mapSet_keys_nodup m i hnd)

/-- On a well-formed map (keys equal value ids, keys unique), filtering
the values by an id gives exactly the looked-up binding. -/
theorem filter_values_keys (m : List (String × MediaItem)) (x : String)
    (hk : ∀ p ∈ m, p.1 = p.2.id) (hnd : (m.map (fun p => p.1)).Nodup) :
    (m.map (fun p => p.2)).filter (fun i => i.id == x) =
      ((m.find? (fun p => p.1 == x)).map (fun p => p.2)).toList := by
  induction m with
  | nil => rfl
  | cons p m ih =>
      have hp1 : p.1 = p.2.id := hk p (List.mem_cons_self p m)
      by_cases hx : (p.2.id == x) = true
      · have hkey : (p.1 == x) = true := by rw [hp1]; exact hx
        have hxval : p.1 = x := by rw [hp1]; simpa using hx
        have hheadkeys : p.1 ∉ m.map (fun p => p.1) := (List.nodup_cons.mp (by simpa using hnd)).1
        have hrest : (m.map (fun p => p.2)).filter (fun i => i.id == x) = [] := by
          rw [List.filter_eq_nil_iff]
          intro i hi
          obtain ⟨q, hq, rfl⟩ := List.mem_map.mp hi
          have hq1 := hk q (List.mem_cons_of_mem p hq)
          intro hqx
          apply hheadkeys
          have : q.1 = x := by rw [hq1]; simpa using hqx
          exact (hxval ▸ this ▸ List.mem_map_of_mem (fun p => p.1) hq)
        simp [List.filter_cons, hx, List.find?_cons, hkey, hrest]
      · have hkey : (p.1 == x) = false := by
          rw [hp1]
          simpa using hx
        simp only [List.map_cons, List.filter_cons, hx, if_false, List.find?_cons, hkey,
          cond_false]
        exact ih (fun q hq => hk q (List.mem_cons_of_mem p hq))
          (List.nodup_cons.mp (by simpa using hnd)).2

/-- The copy stored by `saveItem` is a member of the resulting store. -/
theorem saveItem_mem (store : List MediaItem) (item : MediaItem) :
    { item with isCustom := some true } ∈ saveItem store item := by
  unfold saveItem
  split
  · rename_i hany
    obtain ⟨i, hi, hid⟩ := List.any_eq_true.mp hany
    exact List.mem_map.mpr ⟨i, hi, by simp [hid]⟩
  · exact List.mem_append_right _ (List.mem_singleton.mpr rfl)

/-- `saveItem` preserves uniqueness of ids in the store. -/
theorem saveItem_ids_nodup (store : List MediaItem) (item : MediaItem)
    (hnd : (store.map (fun i => i.id)).Nodup) :
    ((saveItem store item).map (fun i => i.id)).Nodup := by
  unfold saveItem
  split
  · rename_i hany
    have hkeys : ((store.map (fun i =>
        if i.id == item.id then { item with isCustom := some true } else i)).map
          (fun i => i.id)) = store.map (fun i => i.id) := by
      rw [List.map_map]
      apply List.map_congr_left
      intro i _
      simp only [Function.comp_apply]
      by_cases h : (i.id == item.id) = true
      · have hid : i.id = item.id := by simpa using h
        rw [if_pos h]
        exact hid.symm
      · rw [if_neg h]
    rw [hkeys]
    exact hnd
  · rename_i hany
    have hnew : item.id ∉ store.map (fun i => i.id) := by
      intro hmem
      obtain ⟨i, hi, hid⟩ := List.mem_map.mp hmem
      exact hany (List.any_eq_true.mpr ⟨i, hi, by simp [hid]⟩)
    rw [List.map_append]
    simp [List.nodup_append, hnd, hnew]

/-- C5: `getAllItems` builds its id-keyed map from the bundled manifest
first and overwrites with durable-store entries; after `saveItem` of an
item (with unique store ids, the IndexedDB key invariant), the merge
returns exactly one item with that id, and it is the stored copy — not
any bundled one. -/
theorem getAll_store_overrides (store bundled : List MediaItem) (item : MediaItem)
    (hnd : (store.map (fun i => i.id)).Nodup) :
    (getAllItems (saveItem store item) bundled).filter (fun i => i.id == item.id) =
      [{ item with isCustom := some true }] := by
  unfold getAllItems
  have hk1 : ∀ p ∈ (loadLocalConfig bundled).foldl
      (fun m item => mapSet m item.id item) [], p.1 = p.2.id :=
    insAll_keysOk _ [] (by intro p hp; cases hp)
  have hn1 : (((loadLocalConfig bundled).foldl
      (fun m item => mapSet m item.id item) []).map (fun p => p.1)).Nodup :=
    insAll_keys_nodup _ [] (by simp)
  have hk2 := insAll_keysOk (saveItem store item) _ hk1
  have hn2 := insAll_keys_nodup (saveItem store item) _ hn1
  rw [filter_values_keys _ item.id hk2 hn2]
  have hfind := find_insAll_mem (saveItem store item)
    { item with isCustom := some true }
    ((loadLocalConfig bundled).foldl (fun m item => mapSet m item.id item) [])
    (saveItem_ids_nodup store item hnd)
    (saveItem_mem store item)
  rw [hfind]
  rfl

/-- Witness for C5 at a concrete input: the stored copy of id `r1` wins
over a bundled item with the same id. -/
theorem getAll_store_overrides_witness :
    (getAllItems (saveItem [] sampleReal) [{ sampleReal with title := "Bundled copy" }]).filter
        (fun i => i.id == sampleReal.id) =
      [{ sampleReal with isCustom := some true }] :=
  getAll_store_overrides [] [{ sampleReal with title := "Bundled copy" }] sampleReal (by decide)

/-! ## C7: import error taxonomy and imported count -/

/-- A string starting with `media/` cannot also start with `data:`. -/
theorem startsWith_media_not_data (u : String) (h : jsStartsWith u "media/" = true) :
    jsStartsWith u "data:" = false := by
  unfold jsStartsWith at h ⊢
  rw [List.isPrefixOf_iff_prefix] at h
  by_contra hc
  rw [Bool.not_eq_false, List.isPrefixOf_iff_prefix] at hc
  obtain ⟨t1, ht1⟩ := h
  obtain ⟨t2, ht2⟩ := hc
  have hdata : "media/".data = 'm' :: "edia/".data := rfl
  have hdata2 : "data:".data = 'd' :: "ata:".data := rfl
  rw [← ht1, hdata, hdata2] at ht2
  simp at ht2

/-- Which manifest items the import loop counts: a `media/` reference
found in the archive, or an inline `data:` reference. -/
theorem importItem_isSome (entries : List (String × ZipData)) (i : MediaItem) :
    (importItem entries i).isSome =
      ((jsStartsWith i.url "media/" && (zipFind entries i.url).isSome) ||
        jsStartsWith i.url "data:") := by
  unfold importItem
  by_cases hm : jsStartsWith i.url "media/" = true
  · rw [if_pos hm, hm, startsWith_media_not_data i.url hm]
    cases hf : zipFind entries i.url with
    | some d => simp
    | none => simp
  · have hmf : jsStartsWith i.url "media/" = false := by
      simp only [Bool.not_eq_true] at hm
      exact hm
    rw [if_neg hm, hmf]
    by_cases hd : jsStartsWith i.url "data:" = true
    · rw [if_pos hd, hd]
      simp
    · have hdf : jsStartsWith i.url "data:" = false := by
        simp only [Bool.not_eq_true] at hd
        exact hd
      rw [if_neg hd, hdf]
      simp

/-- The import loop fold computes the count of importable items and the
list of stored copies. -/
theorem import_fold (entries : List (String × ZipData)) (xs : List MediaItem) :
    ∀ (c : Nat) (acc : List MediaItem),
      xs.foldl
        (fun (acc : Nat × List MediaItem) item =>
          match importItem entries item with
          | some saved => (acc.1 + 1, acc.2 ++ [saved])
          | none => acc)
        (c, acc) =
      (c + xs.countP (fun i => (importItem entries i).isSome),
       acc ++ xs.filterMap (importItem entries)) := by
  induction xs with
  | nil => intro c acc; simp
  | cons x xs ih =>
      intro c acc
      simp only [List.foldl_cons]
      cases hx : importItem entries x with
      | some saved =>
          rw [ih (c + 1) (acc ++ [saved])]
          rw [List.countP_cons, List.filterMap_cons, hx]
          simp [hx, Nat.add_assoc, Nat.add_comm 1]
      | none =>
          rw [ih c acc]
          rw [List.countP_cons, List.filterMap_cons, hx]
          simp [hx]

/-- C7: `importGamePack` fails with the "not a valid package" error
exactly when neither manifest alias exists (`data.json` is consulted
first, then `game_data.json`); it fails with the "corrupt package" error
exactly when the located manifest's `items` field is missing or not a
list; otherwise it succeeds, returning the count of items with a
`media/`-prefixed reference found in the archive plus items with an
inline `data:` reference (all other items are skipped without counting),
and a count of zero is still a success. -/
theorem importGamePack_taxonomy (entries : List (String × ZipData)) :
    ((importGamePack entries =
        Except.error "Invalid Game Pack: missing data.json or game_data.json") ↔
      (zipFind entries "data.json" = none ∧ zipFind entries "game_data.json" = none)) ∧
    (∀ m : ItemsField,
      (zipFind entries "data.json" = some (ZipData.manifest m) ∨
       (zipFind entries "data.json" = none ∧
        zipFind entries "game_data.json" = some (ZipData.manifest m))) →
      ((importGamePack entries = Except.error "Invalid Game Pack: corrupt data format") ↔
        (m = ItemsField.missing ∨ m = ItemsField.notList))) ∧
    (∀ xs : List MediaItem,
      (zipFind entries "data.json" = some (ZipData.manifest (ItemsField.list xs)) ∨
       (zipFind entries "data.json" = none ∧
        zipFind entries "game_data.json" = some (ZipData.manifest (ItemsField.list xs)))) →
      importGamePack entries =
        Except.ok
          (xs.countP (fun i =>
            (jsStartsWith i.url "media/" && (zipFind entries i.url).isSome) ||
              jsStartsWith i.url "data:"),
           xs.filterMap (importItem entries))) := by
  have hcount : ∀ xs : List MediaItem,
      xs.countP (fun i => (importItem entries i).isSome) =
        xs.countP (fun i =>
          (jsStartsWith i.url "media/" && (zipFind entries i.url).isSome) ||
            jsStartsWith i.url "data:") := by
    intro xs
    apply List.countP_congr
    intro i _
    rw [importItem_isSome]
  refine ⟨?_, ?_, ?_⟩
  · cases hd : zipFind entries "data.json" with
    | some d =>
        cases d with
        | bytes b => simp [importGamePack, hd]
        | manifest m =>
            cases m with
            | missing => simp [importGamePack, hd]
            | notList => simp [importGamePack, hd]
            | list xs => simp [importGamePack, hd, import_fold]
    | none =>
        cases hg : zipFind entries "game_data.json" with
        | some d =>
            cases d with
            | bytes b => simp [importGamePack, hd, hg]
            | manifest m =>
                cases m with
                | missing => simp [importGamePack, hd, hg]
                | notList => simp [importGamePack, hd, hg]
                | list xs => simp [importGamePack, hd, hg, import_fold]
        | none => simp [importGamePack, hd, hg]
  · intro m hm
    have hman : (match zipFind entries "data.json" with
        | some d => some d
        | none => zipFind entries "game_data.json") = some (ZipData.manifest m) := by
      rcases hm with h | ⟨h1, h2⟩
      · rw [h]
      · rw [h1, h2]
    cases m with
    | missing => simp [importGamePack, hman]
    | notList => simp [importGamePack, hman]
    | list xs => simp [importGamePack, hman, import_fold]
  · intro xs hm
    have hman : (match zipFind entries "data.json" with
        | some d => some d
        | none => zipFind entries "game_data.json") =
          some (ZipData.manifest (ItemsField.list xs)) := by
      rcases hm with h | ⟨h1, h2⟩
      · rw [h]
      · rw [h1, h2]
    simp only [importGamePack, hman]
    rw [import_fold entries xs 0 []]
    rw [hcount xs]
    simp

/-- Witness for C7 at a concrete input: an archive whose `data.json`
manifest lists one inline item imports exactly that item. -/
theorem importGamePack_taxonomy_witness :
    importGamePack [("data.json", ZipData.manifest (ItemsField.list [sampleReal]))] =
      Except.ok
        ([sampleReal].countP (fun i =>
          (jsStartsWith i.url "media/" &&
            (zipFind [("data.json", ZipData.manifest (ItemsField.list [sampleReal]))]
              i.url).isSome) ||
            jsStartsWith i.url "data:"),
         [sampleReal].filterMap
           (importItem [("data.json", ZipData.manifest (ItemsField.list [sampleReal]))])) :=
  (importGamePack_taxonomy [("data.json", ZipData.manifest (ItemsField.list [sampleReal]))]).2.2
    [sampleReal] (Or.inl (by decide))

/-! ## C4: export/import round-trip -/

/-- Every extension `getExtension` can produce is dot-free. -/
theorem getExtension_no_dot (m : String) (t : MediaType) :
    '.' ∉ (getExtension m t).data := by
  unfold getExtension
  cases t <;> split_ifs <;>
    first
      | decide
      | (dsimp only; split_ifs <;> decide)

/-- Splitting a character list at a dot whose right part is dot-free is
unambiguous. -/
theorem append_dot_cancel (l1 : List Char) :
    ∀ (l2 r1 r2 : List Char), '.' ∉ r1 → '.' ∉ r2 →
      l1 ++ '.' :: r1 = l2 ++ '.' :: r2 → l1 = l2 := by
  induction l1 with
  | nil =>
      intro l2 r1 r2 h1 h2 heq
      cases l2 with
      | nil => rfl
      | cons c l2 =>
          simp only [List.nil_append, List.cons_append, List.cons.injEq] at heq
          exfalso
          apply h1
          rw [heq.2]
          exact List.mem_append_right _ (List.mem_cons_self _ _)
  | cons c l1 ih =>
      intro l2 r1 r2 h1 h2 heq
      cases l2 with
      | nil =>
          simp only [List.cons_append, List.nil_append, List.cons.injEq] at heq
          exfalso
          apply h2
          rw [← heq.2]
          exact List.mem_append_right _ (List.mem_cons_self _ _)
      | cons c2 l2 =>
          simp only [List.cons_append, List.cons.injEq] at heq
          rw [heq.1, ih l2 r1 r2 h1 h2 heq.2]

/-- Two in-archive media paths agree only when the item ids agree (the
extension parts are dot-free). -/
theorem media_path_inj (id1 id2 e1 e2 : String) (h1 : '.' ∉ e1.data) (h2 : '.' ∉ e2.data)
    (heq : "media/" ++ (id1 ++ "." ++ e1) = "media/" ++ (id2 ++ "." ++ e2)) : id1 = id2 := by
  have hdata := congrArg String.data heq
  simp only [String.data_append] at hdata
  have hcancel := List.append_cancel_left hdata
  rw [List.append_assoc, List.append_assoc, List.singleton_append,
    List.singleton_append] at hcancel
  exact String.ext (append_dot_cancel id1.data id2.data e1.data e2.data h1 h2 hcancel)

/-- Evaluating the last-write-wins lookup from an arbitrary
accumulator. -/
theorem zipFind_go (name : String) (entries : List (String × ZipData)) :
    ∀ init : Option ZipData,
      entries.foldl (fun acc e => if e.1 == name then some e.2 else acc) init =
        match zipFind entries name with
        | some v => some v
        | none => init := by
  induction entries with
  | nil => intro init; simp [zipFind]
  | cons e l ih =>
      intro init
      have hz : zipFind (e :: l) name =
          l.foldl (fun acc e => if e.1 == name then some e.2 else acc)
            (if e.1 == name then some e.2 else none) := rfl
      rw [List.foldl_cons, ih, hz, ih]
      cases hl : zipFind l name with
      | some v => rfl
      | none =>
          by_cases he : (e.1 == name) = true
          · simp [he]
          · simp [he]

/-- Looking a name up in a concatenation prefers the later half. -/
theorem zipFind_append (l1 l2 : List (String × ZipData)) (name : String) :
    zipFind (l1 ++ l2) name =
      match zipFind l2 name with
      | some v => some v
      | none => zipFind l1 name := by
  unfold zipFind
  rw [List.foldl_append]
  exact zipFind_go name l2 _

/-- The export fold is a media-entry `filterMap` paired with a processed
`map`. -/
theorem export_fold (resolver : String → Option ResolvedMedia) (items : List MediaItem) :
    ∀ (accE : List (String × ZipData)) (accP : List MediaItem),
      items.foldl
        (fun (acc : List (String × ZipData) × List MediaItem) item =>
          match resolveMedia resolver item.url with
          | some rm =>
              let filename := item.id ++ "." ++ getExtension rm.mime item.type
              (acc.1 ++ [("media/" ++ filename, ZipData.bytes rm.bytes)],
               acc.2 ++ [{ item with url := "media/" ++ filename }])
          | none => (acc.1, acc.2 ++ [item]))
        (accE, accP) =
      (accE ++ items.filterMap (exportMediaEntry resolver),
       accP ++ items.map (exportProcessItem resolver)) := by
  induction items with
  | nil => intro accE accP; simp
  | cons x l ih =>
      intro accE accP
      simp only [List.foldl_cons]
      cases hx : resolveMedia resolver x.url with
      | some rm =>
          rw [ih]
          simp [exportMediaEntry, exportProcessItem, hx, List.filterMap_cons, List.map_cons]
      | none =>
          rw [ih]
          simp [exportMediaEntry, exportProcessItem, hx, List.filterMap_cons, List.map_cons]

/-- `exportGamePack` on a non-empty collection: media entries in item
order, then the manifest under both alias names. -/
theorem exportGamePack_spec (resolver : String → Option ResolvedMedia)
    (items : List MediaItem) (hne : items ≠ []) :
    exportGamePack resolver items =
      Except.ok (items.filterMap (exportMediaEntry resolver) ++
        [("game_data.json",
          ZipData.manifest (ItemsField.list (items.map (exportProcessItem resolver)))),
         ("data.json",
          ZipData.manifest (ItemsField.list (items.map (exportProcessItem resolver))))]) := by
  unfold exportGamePack
  have hlen : ¬ ((items.length == 0) = true) := by
    simp only [beq_iff_eq, List.length_eq_zero]
    exact hne
  rw [if_neg hlen, export_fold resolver items [] []]
  simp

/-- Under pairwise-distinct ids, the media entries of items other than
`x` never collide with `x`'s media path. -/
theorem zipFind_export_media_none (resolver : String → Option ResolvedMedia)
    (l : List MediaItem) (x : String) (ext : String) (hext : '.' ∉ ext.data) :
    ∀ _ : (∀ j ∈ l, j.id ≠ x),
      zipFind (l.filterMap (exportMediaEntry resolver)) ("media/" ++ (x ++ "." ++ ext)) =
        none := by
  induction l with
  | nil => intro _; rfl
  | cons j l ih =>
      intro hnotin
      rw [List.filterMap_cons]
      cases hj : exportMediaEntry resolver j with
      | none => exact ih (fun i hi => hnotin i (List.mem_cons_of_mem j hi))
      | some e =>
          dsimp only
          have hsplit : e :: l.filterMap (exportMediaEntry resolver) =
              [e] ++ l.filterMap (exportMediaEntry resolver) := rfl
          rw [hsplit, zipFind_append,
            ih (fun i hi => hnotin i (List.mem_cons_of_mem j hi))]
          unfold exportMediaEntry at hj
          cases hr : resolveMedia resolver j.url with
          | none => rw [hr] at hj; cases hj
          | some rm =>
              rw [hr] at hj
              have he : e = ("media/" ++ (j.id ++ "." ++ getExtension rm.mime j.type),
                  ZipData.bytes rm.bytes) := by
                injection hj with hj'
                exact hj'.symm
              subst he
              have hne : ¬ ("media/" ++ (j.id ++ "." ++ getExtension rm.mime j.type) =
                  "media/" ++ (x ++ "." ++ ext)) := fun hpath =>
                hnotin j (List.mem_cons_self j l)
                  (media_path_inj j.id x (getExtension rm.mime j.type) ext
                    (getExtension_no_dot rm.mime j.type) hext hpath)
              simp [zipFind, hne]

/-- Under pairwise-distinct ids, the bytes exported for an item are found
again at its media path. -/
theorem zipFind_export_media (resolver : String → Option ResolvedMedia)
    (l : List MediaItem) (item : MediaItem) (rm : ResolvedMedia) :
    ∀ _ : (l.map (fun i => i.id)).Nodup, ∀ _ : item ∈ l,
      ∀ _ : resolveMedia resolver item.url = some rm,
      zipFind (l.filterMap (exportMediaEntry resolver))
          ("media/" ++ (item.id ++ "." ++ getExtension rm.mime item.type)) =
        some (ZipData.bytes rm.bytes) := by
  induction l with
  | nil => intro _ hmem; cases hmem
  | cons j l ih =>
      intro hnd hmem hres
      have hnd2 : (∀ y ∈ l, ¬ y.id = j.id) ∧ (l.map (fun i => i.id)).Nodup := by
        simpa using hnd
      rw [List.filterMap_cons]
      rcases List.mem_cons.mp hmem with h | h
      · subst h
        have hj : exportMediaEntry resolver item =
            some ("media/" ++ (item.id ++ "." ++ getExtension rm.mime item.type),
              ZipData.bytes rm.bytes) := by
          unfold exportMediaEntry
          rw [hres]
        rw [hj]
        dsimp only
        have hsplit : ("media/" ++ (item.id ++ "." ++ getExtension rm.mime item.type),
              ZipData.bytes rm.bytes) :: l.filterMap (exportMediaEntry resolver) =
            [("media/" ++ (item.id ++ "." ++ getExtension rm.mime item.type),
              ZipData.bytes rm.bytes)] ++ l.filterMap (exportMediaEntry resolver) := rfl
        rw [hsplit, zipFind_append,
          zipFind_export_media_none resolver l item.id
            (getExtension rm.mime item.type) (getExtension_no_dot rm.mime item.type)
            (fun y hy => hnd2.1 y hy)]
        simp [zipFind]
      · cases hj : exportMediaEntry resolver j with
        | none => exact ih hnd2.2 h hres
        | some e =>
            dsimp only
            have hsplit : e :: l.filterMap (exportMediaEntry resolver) =
                [e] ++ l.filterMap (exportMediaEntry resolver) := rfl
            rw [hsplit, zipFind_append, ih hnd2.2 h hres]

/-- C4: round-trip — exporting a non-empty collection (with unique ids,
the data-model invariant) and importing the resulting archive recovers
every item whose media was resolvable at export time: the imported store
gains an item with the same `id`, `isReal`, `title` (and all other
fields), whose media reference is an inline data payload encoding
exactly the original resolved bytes. -/
theorem export_import_roundtrip (items : List MediaItem)
    (resolver : String → Option ResolvedMedia) (hne : items ≠ [])
    (hnd : (items.map (fun i => i.id)).Nodup) (item : MediaItem) (hmem : item ∈ items)
    (rm : ResolvedMedia) (hres : resolveMedia resolver item.url = some rm) :
    ∃ archive : List (String × ZipData),
      exportGamePack resolver items = Except.ok archive ∧
      ∃ (count : Nat) (saved : List MediaItem),
        importGamePack archive = Except.ok (count, saved) ∧
        { item with url := encodeDataUrl rm.bytes, isCustom := some true } ∈ saved := by
  refine ⟨_, exportGamePack_spec resolver items hne, ?_⟩
  have hman : zipFind
      (items.filterMap (exportMediaEntry resolver) ++
        [("game_data.json",
          ZipData.manifest (ItemsField.list (items.map (exportProcessItem resolver)))),
         ("data.json",
          ZipData.manifest (ItemsField.list (items.map (exportProcessItem resolver))))])
      "data.json" =
      some (ZipData.manifest (ItemsField.list (items.map (exportProcessItem resolver)))) := by
    rw [zipFind_append]
    simp [zipFind]
  have himport : importGamePack
      (items.filterMap (exportMediaEntry resolver) ++
        [("game_data.json",
          ZipData.manifest (ItemsField.list (items.map (exportProcessItem resolver)))),
         ("data.json",
          ZipData.manifest (ItemsField.list (items.map (exportProcessItem resolver))))]) =
      Except.ok
        ((items.map (exportProcessItem resolver)).countP
           (fun i => (importItem
             (items.filterMap (exportMediaEntry resolver) ++
               [("game_data.json",
                 ZipData.manifest (ItemsField.list (items.map (exportProcessItem resolver)))),
                ("data.json",
                 ZipData.manifest
                   (ItemsField.list (items.map (exportProcessItem resolver))))]) i).isSome),
         (items.map (exportProcessItem resolver)).filterMap
           (importItem
             (items.filterMap (exportMediaEntry resolver) ++
               [("game_data.json",
                 ZipData.manifest (ItemsField.list (items.map (exportProcessItem resolver)))),
                ("data.json",
                 ZipData.manifest
                   (ItemsField.list (items.map (exportProcessItem resolver))))]))) := by
    simp only [importGamePack, hman]
    rw [import_fold]
    simp
  refine ⟨_, _, himport, ?_⟩
  apply List.mem_filterMap.mpr
  refine ⟨exportProcessItem resolver item, List.mem_map_of_mem _ hmem, ?_⟩
  have hproc : exportProcessItem resolver item =
      { item with
          url := "media/" ++ (item.id ++ "." ++ getExtension rm.mime item.type) } := by
    unfold exportProcessItem
    rw [hres]
  rw [hproc]
  unfold importItem
  dsimp only
  have hstart : jsStartsWith
      ("media/" ++ (item.id ++ "." ++ getExtension rm.mime item.type)) "media/" = true := by
    unfold jsStartsWith
    rw [String.data_append]
    simp [List.isPrefixOf_iff_prefix]
  rw [if_pos hstart]
  have hnogd : ¬ (("game_data.json" : String) =
      "media/" ++ (item.id ++ "." ++ getExtension rm.mime item.type)) := by
    intro h
    have := congrArg String.data h
    simp [String.data_append] at this
  have hnodj : ¬ (("data.json" : String) =
      "media/" ++ (item.id ++ "." ++ getExtension rm.mime item.type)) := by
    intro h
    have := congrArg String.data h
    simp [String.data_append] at this
  have hfind : zipFind
      (items.filterMap (exportMediaEntry resolver) ++
        [("game_data.json",
          ZipData.manifest (ItemsField.list (items.map (exportProcessItem resolver)))),
         ("data.json",
          ZipData.manifest (ItemsField.list (items.map (exportProcessItem resolver))))])
      ("media/" ++ (item.id ++ "." ++ getExtension rm.mime item.type)) =
      some (ZipData.bytes rm.bytes) := by
    rw [zipFind_append]
    have hmanifolds : zipFind
        [("game_data.json",
          ZipData.manifest (ItemsField.list (items.map (exportProcessItem resolver)))),
         ("data.json",
          ZipData.manifest (ItemsField.list (items.map (exportProcessItem resolver))))]
        ("media/" ++ (item.id ++ "." ++ getExtension rm.mime item.type)) = none := by
      simp [zipFind, hnogd, hnodj]
    rw [hmanifolds]
    exact zipFind_export_media resolver items item rm hnd hmem hres
  rw [hfind]
  rfl

/-- Witness for C4 at a concrete input: a one-item collection with
resolvable inline media survives the round trip. -/
theorem export_import_roundtrip_witness :
    ∃ archive : List (String × ZipData),
      exportGamePack sampleResolver [sampleReal] = Except.ok archive ∧
      ∃ (count : Nat) (saved : List MediaItem),
        importGamePack archive = Except.ok (count, saved) ∧
        { sampleReal with url := encodeDataUrl [10, 20], isCustom := some true } ∈ saved :=
  export_import_roundtrip [sampleReal] sampleResolver (by decide) (by decide) sampleReal
    (by decide) { bytes := [10, 20], mime := "image/png" } (by decide)

end FakeOrReal
